import Mathlib

/-!
Verification of the `cli_api-downldr` repository: a shallow embedding of the
stream-catalog builder (`src/core/youtube_fetcher.cpp`), the standalone
downloader's format lister (`yt_cli_downloader.cpp`), the signature-cipher
parser (`yt_sig_decipher.cpp`) and the stream filter, together with theorems
about the specified behaviour.

Strings are modelled as `List Char`; machine integers as `Int` (overflow does
not occur on the inputs considered); fallible C++ code (uncaught exceptions)
as `Except Unit`.
-/

set_option autoImplicit false

abbrev Str := List Char

/-- The character `{` (written via its code point to keep braces out of literals). -/
def lbrace : Char := Char.ofNat 123

/-- The character `}` (written via its code point). -/
def rbrace : Char := Char.ofNat 125

/-- First index of character `c` in `s`, as in `std::string::find(c)`. -/
def charIdx (c : Char) : Str → Option Nat
  | [] => none
  | x :: t => if x = c then some 0 else (charIdx c t).map (· + 1)

/-- Models `std::string::find(c, start)`: first index `≥ start` holding `c`. -/
def charFindFrom (c : Char) (s : Str) (start : Nat) : Option Nat :=
  (charIdx c (s.drop start)).map (· + start)

/-- Models `std::string::find(pattern)`: index of the first occurrence of `pattern`. -/
def strFind (p : Str) : Str → Option Nat
  | [] => if p = [] then some 0 else none
  | c :: t => if p.isPrefixOf (c :: t) then some 0 else (strFind p t).map (· + 1)

/-- Models `s.find(pattern) != npos`. -/
def hasSubstr (s p : Str) : Bool := (strFind p s).isSome

/-- C `isspace` (the characters skipped by `std::stol`/`std::stoi`). -/
def isSpaceChar (c : Char) : Bool :=
  c = ' ' || c = '\t' || c = '\n' || c = Char.ofNat 11 || c = Char.ofNat 12 || c = '\r'

/-- Numeric value of a decimal digit list (most significant first). -/
def decDigitsVal (ds : Str) : Int :=
  ds.foldl (fun a c => 10 * a + (Int.ofNat (c.toNat - '0'.toNat))) 0

/-- Longest decimal-digit run at the head; `none` when there is none
(`std::stol` semantics: at least one digit required, trailing junk ignored). -/
def decPrefixVal (t : Str) : Option Int :=
  match t.takeWhile Char.isDigit with
  | [] => none
  | ds => some (decDigitsVal ds)

/-- Models `std::stol` / `std::stoll` base 10: skip whitespace, optional sign, longest
digit run; `none` models the `std::invalid_argument` throw (no digits).
Out-of-range is not modelled (`Int` is unbounded). -/
def stolParse (s : Str) : Option Int :=
  match s.dropWhile isSpaceChar with
  | '-' :: t => (decPrefixVal t).map (fun v => -v)
  | '+' :: t => decPrefixVal t
  | t => decPrefixVal t

def isHexDigitChar (c : Char) : Bool :=
  c.isDigit || ('a' ≤ c && c ≤ 'f') || ('A' ≤ c && c ≤ 'F')

def hexDigitVal (c : Char) : Nat :=
  if c.isDigit then c.toNat - '0'.toNat
  else if 'a' ≤ c && c ≤ 'f' then c.toNat - 'a'.toNat + 10
  else c.toNat - 'A'.toNat + 10

def hexPrefixVal (t : Str) : Option Int :=
  match t.takeWhile isHexDigitChar with
  | [] => none
  | ds => some (Int.ofNat (ds.foldl (fun a c => 16 * a + hexDigitVal c) 0))

/-- Models `std::stoi(s, nullptr, 16)` on a two-character window: skip whitespace,
optional sign, longest hex-digit run; `none` models the throw.  (A `0x` prefix
needs at least three characters, so it cannot arise in a two-character window.) -/
def stoiHex (s : Str) : Option Int :=
  match s.dropWhile isSpaceChar with
  | '-' :: t => (hexPrefixVal t).map (fun v => -v)
  | '+' :: t => hexPrefixVal t
  | t => hexPrefixVal t

/-- Models `static_cast<char>(val)` re-read as an unsigned byte. -/
def charOfByte (v : Int) : Char := Char.ofNat (Int.emod v 256).toNat

/-- Models `url_decode` from `yt_sig_decipher.cpp`: percent-decoding with `+`→space;
a `%` escape needs two following characters, non-hex escapes pass through. -/
def url_decode : Str → Str
  | '%' :: a :: b :: rest =>
    (match stoiHex [a, b] with
     | some v => charOfByte v :: url_decode rest
     | none => '%' :: a :: b :: url_decode rest)
  | '%' :: rest => '%' :: url_decode rest
  | '+' :: rest => ' ' :: url_decode rest
  | c :: rest => c :: url_decode rest
  | [] => []

/-- Models `cpr::util::urlDecode` (curl's unescape): percent-decoding only, `+` is
left alone, a `%` not followed by two hex digits passes through. -/
def curlUrlDecode : Str → Str
  | '%' :: a :: b :: rest =>
    if isHexDigitChar a && isHexDigitChar b then
      Char.ofNat (16 * hexDigitVal a + hexDigitVal b) :: curlUrlDecode rest
    else '%' :: curlUrlDecode (a :: b :: rest)
  | c :: rest => c :: curlUrlDecode rest
  | [] => []

/-- Models `std::to_string` for a C++ integer. -/
def intToStr (n : Int) : Str :=
  if n < 0 then '-' :: Nat.toDigits 10 n.natAbs else Nat.toDigits 10 n.toNat

/-! ## JSON values (the parsed player response, as `nlohmann::json`) -/

inductive Json where
  | jnull
  | jbool (b : Bool)
  | jnum (n : Int)
  | jstr (s : Str)
  | jarr (elems : List Json)
  | jobj (fields : List (Str × Json))

def lookupField (k : Str) : List (Str × Json) → Option Json
  | [] => none
  | (k0, v) :: rest => if k0 = k then some v else lookupField k rest

def Json.getField : Json → Str → Option Json
  | .jobj fs, k => lookupField k fs
  | _, _ => none

/-- Models `j.contains(key)` (`false` on non-objects, as in nlohmann). -/
def Json.hasKey (j : Json) (k : Str) : Bool := (j.getField k).isSome

/-- Models `j[key]` (only ever used under a `contains` guard). -/
def Json.get (j : Json) (k : Str) : Json := (j.getField k).getD .jnull

def Json.isString : Json → Bool
  | .jstr _ => true
  | _ => false

def Json.isNumber : Json → Bool
  | .jnum _ => true
  | _ => false

def Json.isObject : Json → Bool
  | .jobj _ => true
  | _ => false

def Json.isArray : Json → Bool
  | .jarr _ => true
  | _ => false

def Json.asString : Json → Str
  | .jstr s => s
  | _ => []

def Json.asInt : Json → Int
  | .jnum n => n
  | _ => 0

/-- Models `safeGetString` (`youtube_fetcher.cpp:29`). -/
def safeGetString (j : Json) (k : Str) : Str :=
  if j.hasKey k && (j.get k).isString then (j.get k).asString else []

/-- Models `safeGetLong` (`youtube_fetcher.cpp:37`): number, or string via `stol`
with the throw swallowed to the default. -/
def safeGetLong (j : Json) (k : Str) (dflt : Int) : Int :=
  if j.hasKey k then
    if (j.get k).isNumber then (j.get k).asInt
    else if (j.get k).isString then
      match stolParse (j.get k).asString with
      | some v => v
      | none => dflt
    else dflt
  else dflt

/-- Models `safeGetInt` (`youtube_fetcher.cpp:49`): same shape with `stoi`
(no difference once integers are unbounded). -/
def safeGetInt (j : Json) (k : Str) (dflt : Int) : Int :=
  if j.hasKey k then
    if (j.get k).isNumber then (j.get k).asInt
    else if (j.get k).isString then
      match stolParse (j.get k).asString with
      | some v => v
      | none => dflt
    else dflt
  else dflt

/-! ## Data model (`include/core/video_info.h`) -/

structure MediaStream where
  itag : Int
  url : Str
  mimeType : Str
  codecs : Str
  bitrate : Int
  width : Option Int
  height : Option Int
  qualityLabel : Option Str
  fps : Option Int
  audioQuality : Option Str
  audioSampleRate : Option Int
  audioChannels : Option Int
  contentLength : Option Int
  isDash : Bool
  isAudioOnly : Bool
  isVideoOnly : Bool
deriving DecidableEq

structure VideoDetails where
  id : Str
  title : Str
  author : Str
  channelId : Str
  lengthSeconds : Int
  description : Str
  thumbnails : List Str
  formats : List MediaStream
  adaptiveFormats : List MediaStream
deriving DecidableEq

/-! ## Core catalog builder (`YouTubeFetcher::parseStreamFormats`) -/

/-- The `cipher`-or-`signatureCipher` value picked at
`youtube_fetcher.cpp:125`. -/
def coreCipherVal (item : Json) : Str :=
  let c := safeGetString item ("cipher".toList)
  if c.isEmpty then safeGetString item ("signatureCipher".toList) else c

/-- Leftmost match of the regex `url=([^&]+)` (`youtube_fetcher.cpp:133`):
first position where `url=` is followed by at least one non-`&` character;
the capture is the maximal non-`&` run. -/
def findUrlParam : Str → Option Str
  | [] => none
  | c :: rest =>
    if ("url=".toList).isPrefixOf (c :: rest) then
      let v := ((c :: rest).drop 4).takeWhile (fun ch => ch ≠ '&')
      if v.isEmpty then findUrlParam rest else some v
    else findUrlParam rest

/-- URL resolution of one format entry (`youtube_fetcher.cpp:122-141`):
direct `url` field, else the percent-decoded capture of `url=([^&]+)` inside
the cipher value; `none` is the `continue` (entry dropped). -/
def coreResolveUrl (item : Json) : Option Str :=
  if (safeGetString item ("url".toList)).isEmpty
      && (item.hasKey ("cipher".toList) || item.hasKey ("signatureCipher".toList)) then
    match findUrlParam (coreCipherVal item) with
    | some m => some (curlUrlDecode m)
    | none => none
  else some (safeGetString item ("url".toList))

/-- Codec substring between `codecs="` and the following quote
(`youtube_fetcher.cpp:150-157`). -/
def extractCodecs (mimeType : Str) : Str :=
  match strFind ("codecs=\"".toList) mimeType with
  | none => []
  | some p =>
    match charFindFrom '"' mimeType (p + 8) with
    | none => []
    | some e => (mimeType.drop (p + 8)).take (e - (p + 8))

/-- Models `contentLength` computation (`youtube_fetcher.cpp:160-171`).  The
`std::stoll` on a string-valued `contentLength` is NOT wrapped in a
`try`-block in the source, so a non-numeric string throws
(`Except.error`); the `approxDurationMs` branch IS wrapped, so there the
throw is swallowed. -/
def contentLengthOf (item : Json) (bitrate : Int) : Except Unit (Option Int) :=
  if item.hasKey ("contentLength".toList) && (item.get ("contentLength".toList)).isString then
    match stolParse (item.get ("contentLength".toList)).asString with
    | some v => .ok (some v)
    | none => .error ()
  else if item.hasKey ("contentLength".toList) && (item.get ("contentLength".toList)).isNumber then
    .ok (some (item.get ("contentLength".toList)).asInt)
  else if item.hasKey ("approxDurationMs".toList) && (item.get ("approxDurationMs".toList)).isString
      && 0 < bitrate then
    match stolParse (item.get ("approxDurationMs".toList)).asString with
    | some d => .ok (some (Int.tdiv bitrate 8 * Int.tdiv d 1000))
    | none => .ok none
  else .ok none

/-- The `MediaStream` record pushed for a kept entry
(`youtube_fetcher.cpp:120-194`), given the already-resolved url and
contentLength. -/
def mkCoreStream (isAdaptiveArr : Bool) (item : Json) (url : Str) (cl : Option Int) : MediaStream :=
  let mimeType := safeGetString item ("mimeType".toList)
  let flags : Bool × Bool :=
    if isAdaptiveArr then
      if hasSubstr mimeType ("audio/".toList) then (true, false)
      else if hasSubstr mimeType ("video/".toList) then (false, true)
      else (false, false)
    else (true, true)
  { itag := safeGetInt item ("itag".toList) 0
    url := url
    mimeType := mimeType
    codecs := extractCodecs mimeType
    bitrate := safeGetLong item ("bitrate".toList) 0
    width := if item.hasKey ("width".toList) then some (safeGetInt item ("width".toList) 0) else none
    height := if item.hasKey ("height".toList) then some (safeGetInt item ("height".toList) 0) else none
    qualityLabel := if item.hasKey ("qualityLabel".toList) then some (safeGetString item ("qualityLabel".toList)) else none
    fps := if item.hasKey ("fps".toList) then some (safeGetInt item ("fps".toList) 0) else none
    audioQuality := if item.hasKey ("audioQuality".toList) then some (safeGetString item ("audioQuality".toList)) else none
    audioSampleRate := if item.hasKey ("audioSampleRate".toList) then some (safeGetLong item ("audioSampleRate".toList) 0) else none
    audioChannels := if item.hasKey ("audioChannels".toList) then some (safeGetInt item ("audioChannels".toList) 0) else none
    contentLength := cl
    isDash := isAdaptiveArr
    isAudioOnly := flags.1
    isVideoOnly := flags.2 }

/-- One iteration of the `process_stream_array` loop
(`youtube_fetcher.cpp:118-194`); `ok none` is a `continue`,
`error` the uncaught `std::stoll` throw. -/
def processStreamItem (isAdaptiveArr : Bool) (item : Json) : Except Unit (Option MediaStream) :=
  if item.isObject = false then .ok none
  else
    match coreResolveUrl item with
    | none => .ok none
    | some url =>
      if url.isEmpty then .ok none
      else
        match contentLengthOf item (safeGetLong item ("bitrate".toList) 0) with
        | .error e => .error e
        | .ok cl => .ok (some (mkCoreStream isAdaptiveArr item url cl))

def processStreamList (isAdaptiveArr : Bool) : List Json → Except Unit (List MediaStream)
  | [] => .ok []
  | item :: rest =>
    match processStreamItem isAdaptiveArr item with
    | .error e => .error e
    | .ok o =>
      match processStreamList isAdaptiveArr rest with
      | .error e => .error e
      | .ok r => .ok (match o with | some s => s :: r | none => r)

/-- Models `process_stream_array` including the `is_array` guard
(`youtube_fetcher.cpp:116`). -/
def processStreamArr (isAdaptiveArr : Bool) (j : Json) : Except Unit (List MediaStream) :=
  match j with
  | .jarr xs => processStreamList isAdaptiveArr xs
  | _ => .ok []

/-- Models `YouTubeFetcher::parseStreamFormats` (`youtube_fetcher.cpp:108-204`),
returning the two catalogs (muxed, adaptive). -/
def parseStreamFormats (j : Json) : Except Unit (List MediaStream × List MediaStream) :=
  if j.hasKey ("streamingData".toList) = false then .ok ([], [])
  else
    match (if (j.get ("streamingData".toList)).hasKey ("formats".toList) then
             processStreamArr false ((j.get ("streamingData".toList)).get ("formats".toList))
           else .ok []) with
    | .error e => .error e
    | .ok fm =>
      match (if (j.get ("streamingData".toList)).hasKey ("adaptiveFormats".toList) then
               processStreamArr true ((j.get ("streamingData".toList)).get ("adaptiveFormats".toList))
             else .ok []) with
      | .error e => .error e
      | .ok af => .ok (fm, af)

/-- Whether the core builder keeps a format entry: it must be an object and
its url must resolve to a nonempty string (the itag plays no role). -/
def coreKeeps (item : Json) : Bool :=
  item.isObject &&
    (match coreResolveUrl item with
     | some u => u.isEmpty = false
     | none => false)

/-- Whether an entry carries a numeric `itag` (the downloader's gate). -/
def hasNumericItag (fj : Json) : Bool :=
  fj.hasKey ("itag".toList) && (fj.get ("itag".toList)).isNumber

def collectThumbUrls : List Json → List Str
  | [] => []
  | t :: rest =>
    if t.hasKey ("url".toList) && (t.get ("url".toList)).isString then
      (t.get ("url".toList)).asString :: collectThumbUrls rest
    else collectThumbUrls rest

def thumbnailsOf (vd : Json) : List Str :=
  if vd.hasKey ("thumbnail".toList) && (vd.get ("thumbnail".toList)).isObject then
    let tn := vd.get ("thumbnail".toList)
    if tn.hasKey ("thumbnails".toList) && (tn.get ("thumbnails".toList)).isArray then
      match tn.get ("thumbnails".toList) with
      | .jarr xs => collectThumbUrls xs
      | _ => []
    else []
  else []

/-- Models `YouTubeFetcher::parseVideoDetailsJson` (`youtube_fetcher.cpp:206-244`).
The `try` block only catches `nlohmann::json::exception`; the
`std::invalid_argument` thrown by the unguarded `std::stoll` in
`parseStreamFormats` escapes, modelled as `Except.error`. -/
def parseVideoDetailsJson (j : Json) (videoId : Str) : Except Unit VideoDetails :=
  let meta : Str × Str × Str × Int × Str × List Str :=
    if j.hasKey ("videoDetails".toList) && (j.get ("videoDetails".toList)).isObject then
      let vd := j.get ("videoDetails".toList)
      (safeGetString vd ("title".toList), safeGetString vd ("author".toList),
       safeGetString vd ("channelId".toList), safeGetLong vd ("lengthSeconds".toList) 0,
       safeGetString vd ("shortDescription".toList), thumbnailsOf vd)
    else ([], [], [], 0, [], [])
  match parseStreamFormats j with
  | .error e => .error e
  | .ok (fm, af) =>
    .ok { id := videoId, title := meta.1, author := meta.2.1, channelId := meta.2.2.1,
          lengthSeconds := meta.2.2.2.1, description := meta.2.2.2.2.1,
          thumbnails := meta.2.2.2.2.2, formats := fm, adaptiveFormats := af }

/-! ## Player-response locator (`YouTubeFetcher::extractJsonFromHtml`) -/

/-- The first assignment anchor searched at `youtube_fetcher.cpp:70`. -/
def anchorA : Str := "ytInitialPlayerResponse = ".toList ++ [lbrace]

/-- The fallback anchor searched at `youtube_fetcher.cpp:72`. -/
def anchorVar : Str := "var ytInitialPlayerResponse = ".toList ++ [lbrace]

/-- Anchor search (`youtube_fetcher.cpp:70-77`). -/
def anchorPosOf (html : Str) : Option Nat :=
  match strFind anchorA html with
  | some p => some p
  | none => strFind anchorVar html

/-- The balanced-brace scan of `youtube_fetcher.cpp:85-99` run on the suffix
starting at the first `{`: index of the character where the count first
returns to zero after a `}`. -/
def braceScan : Str → Int → Option Nat
  | [], _ => none
  | c :: t, cnt =>
    if c = lbrace then (braceScan t (cnt + 1)).map (· + 1)
    else if c = rbrace then
      if cnt - 1 = 0 then some 0 else (braceScan t (cnt - 1)).map (· + 1)
    else (braceScan t cnt).map (· + 1)

/-- Models `YouTubeFetcher::extractJsonFromHtml` (`youtube_fetcher.cpp:69-106`). -/
def extractJsonFromHtml (html : Str) : Option Str :=
  match anchorPosOf html with
  | none => none
  | some p =>
    match charFindFrom lbrace html p with
    | none => none
    | some b =>
      match braceScan (html.drop b) 0 with
      | none => none
      | some e => some ((html.drop b).take (e + 1))

/-- Net brace count of a string (`{` = +1, `}` = -1). -/
def braceDelta : Str → Int
  | [] => 0
  | c :: t => (if c = lbrace then 1 else if c = rbrace then -1 else 0) + braceDelta t

/-! ## Cipher-string parser (`SignatureDecipherer::parse_signature_cipher`) -/

/-- Insertion into a `std::map<std::string, std::string>` via `operator[]`
(overwrite an existing key, otherwise add). -/
def mapInsert (m : List (Str × Str)) (k v : Str) : List (Str × Str) :=
  match m with
  | [] => [(k, v)]
  | (k0, v0) :: rest => if k0 = k then (k0, v) :: rest else (k0, v0) :: mapInsert rest k v

def mapLookup (m : List (Str × Str)) (k : Str) : Option Str :=
  match m with
  | [] => none
  | (k0, v0) :: rest => if k0 = k then some v0 else mapLookup rest k

/-- The character-by-character loop of `yt_sig_decipher.cpp:297-320`:
state is (remaining input, current key, current value, parsing-key flag,
accumulated map). -/
def scanPairs : Str → Str → Str → Bool → List (Str × Str) → List (Str × Str)
  | [], ck, cv, _, m =>
    if ck.isEmpty then m else mapInsert m (url_decode ck) (url_decode cv)
  | c :: rest, ck, cv, pk, m =>
    if c = '=' then
      if pk then scanPairs rest ck cv false m
      else scanPairs rest ck (cv ++ ['=']) pk m
    else if c = '&' then
      scanPairs rest [] [] true
        (if ck.isEmpty then m else mapInsert m (url_decode ck) (url_decode cv))
    else
      if pk then scanPairs rest (ck ++ [c]) cv pk m
      else scanPairs rest ck (cv ++ [c]) pk m

/-- Models `SignatureDecipherer::parse_signature_cipher`
(`yt_sig_decipher.cpp:281-335`): `some (url, s, sp)` on success (the out
parameters), `none` for the `return false` (`CipherParseError`). -/
def parse_signature_cipher (c : Str) : Option (Str × Str × Str) :=
  let params := scanPairs c [] [] true []
  match mapLookup params ("url".toList), mapLookup params ("s".toList) with
  | some u, some s =>
    let sp0 := match mapLookup params ("sp".toList) with
      | some v => v
      | none => "signature".toList
    some (u, s, if sp0.isEmpty then "signature".toList else sp0)
  | _, _ => none

/-- Split a string on a separator character (used by the spec-level
re-statement of the cipher grammar). -/
def splitOnChar (sep : Char) : Str → List Str
  | [] => [[]]
  | c :: t =>
    if c = sep then [] :: splitOnChar sep t
    else
      match splitOnChar sep t with
      | [] => [[c]]
      | p :: ps => (c :: p) :: ps

/-- Key part of a pair: everything before the first `=`. -/
def firstEqKey : Str → Str
  | [] => []
  | c :: rest => if c = '=' then [] else c :: firstEqKey rest

/-- Value part of a pair: everything after the first `=` (empty when there is
no `=`); later `=` characters stay in the value. -/
def firstEqVal : Str → Str
  | [] => []
  | c :: rest => if c = '=' then rest else firstEqVal rest

/-- Accumulate one `&`-delimited piece into the map: split on the first `=`,
percent-decode both sides (pieces with an empty raw key carry no pair). -/
def specInsertPiece (m : List (Str × Str)) (p : Str) : List (Str × Str) :=
  if (firstEqKey p).isEmpty then m
  else mapInsert m (url_decode (firstEqKey p)) (url_decode (firstEqVal p))

/-- The cipher parameter map as the spec describes it: split on `&`, split
each pair on the first `=` only, percent-decode both sides, accumulate. -/
def specParams (c : Str) : List (Str × Str) :=
  (splitOnChar '&' c).foldl specInsertPiece []

/-- Re-statement of the cipher parse following the spec's words (the
refinement target for the claim about `parse_signature_cipher`): fail iff
`url` or `s` is missing from the accumulated map; `sp` names the signature
parameter, defaulting to `signature` when absent or empty. -/
def specCipherParse (c : Str) : Option (Str × Str × Str) :=
  let params := specParams c
  match mapLookup params ("url".toList), mapLookup params ("s".toList) with
  | some u, some s =>
    let sp0 := match mapLookup params ("sp".toList) with
      | some v => v
      | none => "signature".toList
    some (u, s, if sp0.isEmpty then "signature".toList else sp0)
  | _, _ => none

/-- Completion of the in-flight pair by the first piece of the remaining
input (bridging device between `scanPairs` and `specParams`). -/
def finishPiece (ck cv : Str) (pk : Bool) (p : Str) (m : List (Str × Str)) : List (Str × Str) :=
  let k := if pk then ck ++ firstEqKey p else ck
  let v := if pk then firstEqVal p else cv ++ p
  if k.isEmpty then m else mapInsert m (url_decode k) (url_decode v)

/-! ## Standalone downloader's format lister (`yt_cli_downloader.cpp`) -/

structure VideoFormat where
  itag : Str
  quality : Str
  container : Str
  codecs : Str
  type : Str
  url : Str
deriving DecidableEq

/-- The itag gate (`yt_cli_downloader.cpp:283-289`): only entries with a
numeric `itag` survive; the number is stringified. -/
def formatItag (fj : Json) : Option Str :=
  if fj.hasKey ("itag".toList) && (fj.get ("itag".toList)).isNumber then
    some (intToStr (fj.get ("itag".toList)).asInt)
  else none

/-- Quality label selection (`yt_cli_downloader.cpp:292-300`). -/
def formatQuality (fj : Json) : Str :=
  if fj.hasKey ("qualityLabel".toList) && (fj.get ("qualityLabel".toList)).isString then
    (fj.get ("qualityLabel".toList)).asString
  else if fj.hasKey ("quality".toList) && (fj.get ("quality".toList)).isString then
    (fj.get ("quality".toList)).asString
  else if fj.hasKey ("bitrate".toList) && (fj.get ("bitrate".toList)).isNumber then
    intToStr (Int.tdiv (fj.get ("bitrate".toList)).asInt 1000) ++ "kbps".toList
  else "N/A".toList

/-- Container / codecs / type extraction from `mimeType`
(`yt_cli_downloader.cpp:303-347`).  `substr(slash+1, semi-(slash+1))` with a
`;` before the `/` underflows `size_t` and clamps to the end of the string,
mirrored by the `≤` test. -/
def containerCodecsType (is_adaptive : Bool) (fj : Json) : Str × Str × Str :=
  if fj.hasKey ("mimeType".toList) && (fj.get ("mimeType".toList)).isString then
    let mime := (fj.get ("mimeType".toList)).asString
    match charIdx '/' mime with
    | none => ("unknown".toList, [], "unknown".toList)
    | some slash =>
      let main_type := mime.take slash
      let cc : Str × Str :=
        match charIdx ';' mime with
        | some semi =>
          let container :=
            if slash + 1 ≤ semi then (mime.drop (slash + 1)).take (semi - (slash + 1))
            else mime.drop (slash + 1)
          let codecs_param := mime.drop (semi + 1)
          let codecs :=
            match strFind ("codecs=\"".toList) codecs_param with
            | some cvp =>
              (match charFindFrom '"' codecs_param cvp with
               | some sq =>
                 (match charFindFrom '"' codecs_param (sq + 1) with
                  | some e2 => (codecs_param.drop (sq + 1)).take (e2 - (sq + 1))
                  | none => codecs_param.drop (sq + 1))
               | none => [])
            | none => codecs_param
          (container, codecs)
        | none => (mime.drop (slash + 1), [])
      let t :=
        if main_type = "audio".toList then
          (if is_adaptive then "audio_only".toList else "audio".toList)
        else if main_type = "video".toList then
          (if is_adaptive then "video_only".toList else "video".toList)
        else "unknown".toList
      (cc.1, cc.2, t)
  else ("N/A".toList, "N/A".toList, "N/A".toList)

/-- Models `json::get<std::string>()`: throws on a non-string value. -/
def getStrVal : Json → Except Unit Str
  | .jstr s => .ok s
  | _ => .error ()

/-- The ternary at `yt_cli_downloader.cpp:355-357`: prefer `signatureCipher`
when the key exists (its type unchecked — a non-string throws). -/
def cipherStrOf (fj : Json) : Except Unit Str :=
  if fj.hasKey ("signatureCipher".toList) then getStrVal (fj.get ("signatureCipher".toList))
  else getStrVal (fj.get ("cipher".toList))

/-- URL resolution for a cipher-bearing entry
(`yt_cli_downloader.cpp:361-392`), with the decipherer abstracted as an
optional function (`none` models a null `global_decipherer`). -/
def resolveCipherUrl (ge : Option (Str → Str)) (cipher_str : Str) : Str :=
  match ge with
  | some d =>
    (match parse_signature_cipher cipher_str with
     | some (base_url, enc_s, sp) =>
       let ds := d enc_s
       if ds.isEmpty = false && hasSubstr ds ("PLACEHOLDER".toList) = false then
         if (charIdx '?' base_url).isSome = false then base_url ++ ['?'] ++ sp ++ ['='] ++ ds
         else base_url ++ ['&'] ++ sp ++ ['='] ++ ds
       else "DECIPHER_FAILED".toList
     | none => "CIPHER_PARSE_FAILED".toList)
  | none => "NO_DECIPHERER".toList

/-- The `VideoFormat` record the lister pushes: quality / container / codecs
/ type from the entry, plus the resolved url. -/
def mkListedFormat (fj : Json) (is_adaptive : Bool) (itg url : Str) : VideoFormat :=
  ⟨itg, formatQuality fj, (containerCodecsType is_adaptive fj).1,
   (containerCodecsType is_adaptive fj).2.1, (containerCodecsType is_adaptive fj).2.2, url⟩

/-- One iteration of the `process_format_list` lambda
(`yt_cli_downloader.cpp:277-399`); `ok none` is the itag `continue`, the
error the uncaught `get<std::string>` throw of the cipher ternary. -/
def processFormatItem (ge : Option (Str → Str)) (is_adaptive : Bool) (fj : Json) :
    Except Unit (Option VideoFormat) :=
  match formatItag fj with
  | none => .ok none
  | some itg =>
    if fj.hasKey ("url".toList) && (fj.get ("url".toList)).isString then
      .ok (some (mkListedFormat fj is_adaptive itg ((fj.get ("url".toList)).asString)))
    else if (fj.hasKey ("signatureCipher".toList) && (fj.get ("signatureCipher".toList)).isString)
        || (fj.hasKey ("cipher".toList) && (fj.get ("cipher".toList)).isString) then
      match cipherStrOf fj with
      | .error e => .error e
      | .ok cs => .ok (some (mkListedFormat fj is_adaptive itg (resolveCipherUrl ge cs)))
    else
      .ok (some (mkListedFormat fj is_adaptive itg []))

def processFormatListItems (ge : Option (Str → Str)) (is_adaptive : Bool) :
    List Json → Except Unit (List VideoFormat)
  | [] => .ok []
  | fj :: rest =>
    match processFormatItem ge is_adaptive fj with
    | .error e => .error e
    | .ok o =>
      match processFormatListItems ge is_adaptive rest with
      | .error e => .error e
      | .ok r => .ok (match o with | some f => f :: r | none => r)

/-- Models `process_format_list` including its `is_array` guard
(`yt_cli_downloader.cpp:278`). -/
def process_format_list (ge : Option (Str → Str)) (is_adaptive : Bool) (j : Json) :
    Except Unit (List VideoFormat) :=
  match j with
  | .jarr xs => processFormatListItems ge is_adaptive xs
  | _ => .ok []

/-- Models `DecipherOperations` (`yt_sig_decipher.hpp:11-17`). -/
structure DecipherOperations where
  main_decipher_function_name : Str
  main_decipher_function_code : Str
  helper_object_name : Str
  helper_object_code : Str
  initialized : Bool
deriving DecidableEq

/-- A value returned by the sandboxed call: a string or anything else. -/
inductive JsValue where
  | jstr (s : Str)
  | jother
deriving DecidableEq

/-- The Duktape sandbox abstracted at its interface: `evalOk` is
`duk_peval_string` succeeding, `isFunction` the `duk_is_function` check on
the named global, `callResult` the guarded call (`none` = `duk_pcall`
error). -/
structure Sandbox where
  evalOk : Str → Bool
  isFunction : Str → Bool
  callResult : Str → Str → Option JsValue

/-- Models `SignatureDecipherer::decipher_signature` (`yt_sig_decipher.cpp:210-279`):
returns the deciphered string (empty on any failure) together with the
engine's operations record, which the method never writes. -/
def decipher_signature (hasCtx : Bool) (sb : Sandbox) (ops : DecipherOperations) (sig : Str) :
    Str × DecipherOperations :=
  if hasCtx = false then ([], ops)
  else if ops.initialized = false || ops.main_decipher_function_code.isEmpty then ([], ops)
  else if ops.helper_object_code.isEmpty = false && sb.evalOk ops.helper_object_code = false then
    ([], ops)
  else if sb.evalOk ops.main_decipher_function_code = false then ([], ops)
  else if sb.isFunction ops.main_decipher_function_name = false then ([], ops)
  else
    match sb.callResult ops.main_decipher_function_name sig with
    | none => ([], ops)
    | some (.jstr s) => (s, ops)
    | some .jother => ([], ops)

/-! ## Stream selector (`filterStreams`) -/

inductive StreamTypePreference where
  | ANY
  | VIDEO_ONLY
  | AUDIO_ONLY
  | MUXED
deriving DecidableEq

inductive QualityPreference where
  | NONE
  | BEST_RESOLUTION
  | WORST_RESOLUTION
  | BEST_BITRATE
  | WORST_BITRATE
  | BEST_AUDIO_BITRATE
  | WORST_AUDIO_BITRATE
deriving DecidableEq

/-- Models `FormatSelectionCriteria` (`include/core/video_info.h:62-70`). -/
structure FormatSelectionCriteria where
  stream_type : StreamTypePreference
  quality_preference : QualityPreference
  target_height : Option Int
  target_fps : Option Int
  preferred_codec_video : Option Str
  preferred_codec_audio : Option Str
  prefer_adaptive_over_muxed : Bool

/-- Modelled from the spec: the body of `filterStreams` is not under `src/`
(only its declaration in `include/core/youtube_fetcher.h:36` and call sites
exist), so the per-stream predicate follows spec §4.5: ANY matches all;
VIDEO_ONLY requires `isVideoOnly`; AUDIO_ONLY requires `isAudioOnly`; MUXED
requires neither exclusive flag; exact height/fps match when set; codec
substring match against `codecs` when a preferred codec is set. -/
def streamMatches (c : FormatSelectionCriteria) (s : MediaStream) : Bool :=
  (match c.stream_type with
   | .ANY => true
   | .VIDEO_ONLY => s.isVideoOnly
   | .AUDIO_ONLY => s.isAudioOnly
   | .MUXED => s.isAudioOnly = false && s.isVideoOnly = false)
  && (match c.target_height with
      | none => true
      | some h => s.height = some h)
  && (match c.target_fps with
      | none => true
      | some fps0 => s.fps = some fps0)
  && (match c.preferred_codec_video with
      | none => true
      | some pc => hasSubstr s.codecs pc)
  && (match c.preferred_codec_audio with
      | none => true
      | some pc => hasSubstr s.codecs pc)

/-- Modelled from the spec: `filterStreams(streams, criteria)` keeps a stream
iff all active constraints hold, as a stable filter. -/
def filterStreams (streams : List MediaStream) (criteria : FormatSelectionCriteria) :
    List MediaStream :=
  streams.filter (streamMatches criteria)

/-! ## Concrete player responses and fixtures used by the theorems -/

/-- A format entry with a url but no `itag`. -/
def noItagEntry : Json := .jobj [("url".toList, .jstr "u".toList)]

/-- A player response whose only format entry is `noItagEntry`. -/
def noItagInput : Json :=
  .jobj [("streamingData".toList, .jobj [("formats".toList, .jarr [noItagEntry])])]

/-- The stream the core builder produces for `noItagInput`: itag defaulted
to 0, entry kept. -/
def noItagStream : MediaStream :=
  ⟨0, "u".toList, [], [], 0, none, none, none, none, none, none, none, none, false, true, true⟩

/-- An adaptive format entry carrying no `mimeType`. -/
def noMimeEntry : Json := .jobj [("itag".toList, .jnum 1), ("url".toList, .jstr "u".toList)]

/-- A player response with `noMimeEntry` as its only adaptive entry. -/
def noMimeAdaptiveInput : Json :=
  .jobj [("streamingData".toList, .jobj [("adaptiveFormats".toList, .jarr [noMimeEntry])])]

/-- The stream the core builder produces for `noMimeAdaptiveInput`:
adaptive, with NEITHER of `isAudioOnly`/`isVideoOnly` set. -/
def noMimeAdaptiveStream : MediaStream :=
  ⟨1, "u".toList, [], [], 0, none, none, none, none, none, none, none, none, true, false, false⟩

/-- A player response whose only format entry has a non-numeric string
`contentLength` (`"abc"`). -/
def badContentLengthInput : Json :=
  .jobj [("streamingData".toList, .jobj [("formats".toList, .jarr [
    .jobj [("itag".toList, .jnum 1), ("url".toList, .jstr "u".toList),
           ("contentLength".toList, .jstr "abc".toList)] ])])]

/-- A format entry carrying the cipher `curl=A&url=B`: the `url` parameter's
value is `B`, but the regex `url=([^&]+)` first matches inside `curl=A`. -/
def curlCipherEntry : Json :=
  .jobj [("itag".toList, .jnum 1), ("cipher".toList, .jstr "curl=A&url=B".toList)]

/-- A player response whose only format entry is `curlCipherEntry`. -/
def curlCipherInput : Json :=
  .jobj [("streamingData".toList, .jobj [("formats".toList, .jarr [curlCipherEntry])])]

/-- The stream the core builder produces for `curlCipherInput`: its url is
`A` (the text after the first occurrence of `url=`), not `B`. -/
def curlCipherStream : MediaStream :=
  ⟨1, ['A'], [], [], 0, none, none, none, none, none, none, none, none, false, true, true⟩

/-- The round-trip cipher string of the spec's test property. -/
def roundTripCipher : Str := "s=CBA&sp=sig&url=https%3A%2F%2Fexample.com%2Fv".toList

/-- The format entry used to witness retention with an empty url (itag but
neither url nor cipher). -/
def bareItagEntry : Json := .jobj [("itag".toList, .jnum 22)]

/-- The record the downloader's lister produces for `bareItagEntry`
(defaults everywhere, empty url). -/
def bareItagFormat : VideoFormat :=
  ⟨"22".toList, "N/A".toList, "N/A".toList, "N/A".toList, "N/A".toList, []⟩

/-- A minimal HTML page for the locator fixture. -/
def locatorHtml : Str :=
  "xx var ytInitialPlayerResponse = ".toList ++ [lbrace] ++ "ab".toList
    ++ [lbrace, rbrace] ++ "c".toList ++ [rbrace] ++ "tail".toList

/-- Initialized decipher operations (engine fixture). -/
def fixtureOps : DecipherOperations :=
  ⟨"fn".toList, "function fn(a)".toList, [], [], true⟩

/-- A sandbox whose call always returns a non-string value. -/
def nonStringSandbox : Sandbox :=
  ⟨fun _ => true, fun _ => true, fun _ _ => some .jother⟩

/-- A sandbox whose call always succeeds with the string `OK`. -/
def okSandbox : Sandbox :=
  ⟨fun _ => true, fun _ => true, fun _ _ => some (.jstr "OK".toList)⟩

/-! ## Lemmas: cipher-scan versus the spec's pair grammar -/

theorem splitOnChar_ne_nil (sep : Char) (s : Str) : splitOnChar sep s ≠ [] := by
  cases s with
  | nil => simp [splitOnChar]
  | cons c t =>
    simp only [splitOnChar]
    split
    · simp
    · split <;> simp_all

theorem finishPiece_fresh (q : Str) (m : List (Str × Str)) :
    finishPiece [] [] true q m = specInsertPiece m q := by
  simp [finishPiece, specInsertPiece]

theorem scanPairs_split (cs : Str) : ∀ (ck cv : Str) (pk : Bool) (m : List (Str × Str)),
    (pk = true → cv = []) → ∀ p ps, splitOnChar '&' cs = p :: ps →
    scanPairs cs ck cv pk m = ps.foldl specInsertPiece (finishPiece ck cv pk p m) := by
  induction cs with
  | nil =>
    intro ck cv pk m hcv p ps hsplit
    simp only [splitOnChar, List.cons.injEq] at hsplit
    obtain ⟨hp, hps⟩ := hsplit
    subst hp; subst hps
    cases pk with
    | true =>
      have hc := hcv rfl; subst hc
      simp [scanPairs, finishPiece, firstEqKey, firstEqVal]
    | false =>
      simp [scanPairs, finishPiece]
  | cons c t ih =>
    intro ck cv pk m hcv p ps hsplit
    by_cases hamp : c = '&'
    · subst hamp
      rw [show splitOnChar '&' ('&' :: t) = [] :: splitOnChar '&' t from by
            simp [splitOnChar]] at hsplit
      injection hsplit with hp hps
      subst hp
      obtain ⟨p2, ps2, h2⟩ : ∃ p2 ps2, splitOnChar '&' t = p2 :: ps2 := by
        cases hl : splitOnChar '&' t with
        | nil => exact absurd hl (splitOnChar_ne_nil _ _)
        | cons a b => exact ⟨a, b, rfl⟩
      subst hps
      have hne : ¬ (('&' : Char) = '=') := by decide
      rw [show scanPairs ('&' :: t) ck cv pk m
            = scanPairs t [] [] true
                (if ck.isEmpty then m else mapInsert m (url_decode ck) (url_decode cv)) by
            simp [scanPairs, hne]]
      rw [ih [] [] true _ (fun _ => rfl) p2 ps2 h2]
      rw [h2]
      simp only [List.foldl_cons]
      congr 1
      rw [finishPiece_fresh]
      congr 1
      cases pk with
      | true =>
        have hc := hcv rfl; subst hc
        simp [finishPiece, firstEqKey, firstEqVal]
      | false =>
        simp [finishPiece]
    · obtain ⟨p2, ps2, h2⟩ : ∃ p2 ps2, splitOnChar '&' t = p2 :: ps2 := by
        cases hl : splitOnChar '&' t with
        | nil => exact absurd hl (splitOnChar_ne_nil _ _)
        | cons a b => exact ⟨a, b, rfl⟩
      rw [show splitOnChar '&' (c :: t) = (c :: p2) :: ps2 by
            simp [splitOnChar, hamp, h2]] at hsplit
      injection hsplit with hp hps
      subst hp; subst hps
      by_cases heq : c = '='
      · subst heq
        cases pk with
        | true =>
          have hc := hcv rfl; subst hc
          rw [show scanPairs ('=' :: t) ck [] true m = scanPairs t ck [] false m by
                simp [scanPairs]]
          rw [ih ck [] false m (by simp) p2 ps2 h2]
          congr 1
          simp [finishPiece, firstEqKey, firstEqVal]
        | false =>
          rw [show scanPairs ('=' :: t) ck cv false m = scanPairs t ck (cv ++ ['=']) false m by
                simp [scanPairs]]
          rw [ih ck (cv ++ ['=']) false m (by simp) p2 ps2 h2]
          congr 1
          simp [finishPiece, firstEqKey, firstEqVal]
      · cases pk with
        | true =>
          have hc := hcv rfl; subst hc
          rw [show scanPairs (c :: t) ck [] true m = scanPairs t (ck ++ [c]) [] true m by
                simp [scanPairs, heq, hamp]]
          rw [ih (ck ++ [c]) [] true m (fun _ => rfl) p2 ps2 h2]
          congr 1
          simp [finishPiece, firstEqKey, firstEqVal, heq]
        | false =>
          rw [show scanPairs (c :: t) ck cv false m = scanPairs t ck (cv ++ [c]) false m by
                simp [scanPairs, heq, hamp]]
          rw [ih ck (cv ++ [c]) false m (by simp) p2 ps2 h2]
          congr 1
          simp [finishPiece, firstEqKey, firstEqVal, heq]

/-! ## Lemmas: substring search and the brace scan -/

theorem strFind_none_iff (p : Str) : ∀ s : Str, strFind p s = none ↔ ¬ p <:+: s := by
  intro s
  induction s with
  | nil =>
    by_cases hp : p = []
    · subst hp; simp [strFind]
    · simp [strFind, hp]
  | cons c t ih =>
    simp only [strFind]
    by_cases hpre : p.isPrefixOf (c :: t)
    · have hpre2 : p <+: c :: t := List.isPrefixOf_iff_prefix.mp hpre
      simp [hpre, List.infix_cons_iff, hpre2]
    · have hpre2 : ¬ p <+: c :: t := fun h => hpre (List.isPrefixOf_iff_prefix.mpr h)
      simp [hpre, List.infix_cons_iff, hpre2, ih]

theorem charIdx_head : ∀ (t : Str) (c : Char) (i : Nat), charIdx c t = some i →
    ∃ rest, t.drop i = c :: rest := by
  intro t
  induction t with
  | nil => intro c i h; simp [charIdx] at h
  | cons x t ih =>
    intro c i h
    simp only [charIdx] at h
    by_cases hx : x = c
    · rw [if_pos hx] at h
      injection h with h
      subst h; subst hx
      exact ⟨t, rfl⟩
    · rw [if_neg hx] at h
      cases hi : charIdx c t with
      | none => rw [hi] at h; simp at h
      | some i0 =>
        rw [hi] at h
        simp only [Option.map_some'] at h
        injection h with h
        subst h
        obtain ⟨rest, hr⟩ := ih c i0 hi
        exact ⟨rest, by simpa using hr⟩

theorem braceScan_spec : ∀ (t : Str) (cnt : Int) (e : Nat), 0 < cnt →
    braceScan t cnt = some e →
    e < t.length ∧ cnt + braceDelta (t.take (e + 1)) = 0 ∧
      ∀ k, k ≤ e → 0 < cnt + braceDelta (t.take k) := by
  intro t
  induction t with
  | nil => intro cnt e hc h; simp [braceScan] at h
  | cons c t ih =>
    intro cnt e hc h
    simp only [braceScan] at h
    by_cases h1 : c = lbrace
    · rw [if_pos h1] at h
      cases hb : braceScan t (cnt + 1) with
      | none => rw [hb] at h; simp at h
      | some e0 =>
        rw [hb] at h
        simp only [Option.map_some'] at h
        injection h with h
        subst h
        obtain ⟨hlen, hzero, hall⟩ := ih (cnt + 1) e0 (by omega) hb
        refine ⟨by simpa using Nat.succ_lt_succ hlen, ?_, ?_⟩
        · simp only [List.take_succ_cons, braceDelta, if_pos h1]
          generalize braceDelta (t.take (e0 + 1)) = D at *
          omega
        · intro k hk
          cases k with
          | zero => simpa [braceDelta] using hc
          | succ k0 =>
            have := hall k0 (by omega)
            simp only [List.take_succ_cons, braceDelta, if_pos h1]
            generalize braceDelta (t.take k0) = D at *
            omega
    · rw [if_neg h1] at h
      by_cases h2 : c = rbrace
      · rw [if_pos h2] at h
        by_cases h3 : cnt - 1 = 0
        · rw [if_pos h3] at h
          injection h with h
          subst h
          refine ⟨by simp, ?_, ?_⟩
          · simp only [List.take_succ_cons, List.take_zero, braceDelta, if_neg h1, if_pos h2]
            omega
          · intro k hk
            interval_cases k
            simpa [braceDelta] using hc
        · rw [if_neg h3] at h
          cases hb : braceScan t (cnt - 1) with
          | none => rw [hb] at h; simp at h
          | some e0 =>
            rw [hb] at h
            simp only [Option.map_some'] at h
            injection h with h
            subst h
            obtain ⟨hlen, hzero, hall⟩ := ih (cnt - 1) e0 (by omega) hb
            refine ⟨by simpa using Nat.succ_lt_succ hlen, ?_, ?_⟩
            · simp only [List.take_succ_cons, braceDelta, if_neg h1, if_pos h2]
              generalize braceDelta (t.take (e0 + 1)) = D at *
              omega
            · intro k hk
              cases k with
              | zero => simpa [braceDelta] using hc
              | succ k0 =>
                have := hall k0 (by omega)
                simp only [List.take_succ_cons, braceDelta, if_neg h1, if_pos h2]
                generalize braceDelta (t.take k0) = D at *
                omega
      · rw [if_neg h2] at h
        cases hb : braceScan t cnt with
        | none => rw [hb] at h; simp at h
        | some e0 =>
          rw [hb] at h
          simp only [Option.map_some'] at h
          injection h with h
          subst h
          obtain ⟨hlen, hzero, hall⟩ := ih cnt e0 hc hb
          refine ⟨by simpa using Nat.succ_lt_succ hlen, ?_, ?_⟩
          · simp only [List.take_succ_cons, braceDelta, if_neg h1, if_neg h2]
            generalize braceDelta (t.take (e0 + 1)) = D at *
            omega
          · intro k hk
            cases k with
            | zero => simpa [braceDelta] using hc
            | succ k0 =>
              have := hall k0 (by omega)
              simp only [List.take_succ_cons, braceDelta, if_neg h1, if_neg h2]
              generalize braceDelta (t.take k0) = D at *
              omega

/-! ## Lemmas: the core builder's per-entry behaviour -/

theorem processStreamItem_isSome (adv : Bool) (item : Json) (o : Option MediaStream)
    (h : processStreamItem adv item = .ok o) : o.isSome = coreKeeps item := by
  unfold processStreamItem at h
  unfold coreKeeps
  split at h
  · next h1 =>
    injection h with h
    subst h
    simp [h1]
  · next h1 =>
    have h1t : item.isObject = true := by
      cases hval : item.isObject with
      | true => rfl
      | false => exact absurd hval h1
    split at h
    · next hr =>
      injection h with h
      subst h
      simp [hr, h1t]
    · next url hr =>
      split at h
      · next h2 =>
        injection h with h
        subst h
        simp [hr, h1t, h2]
      · next h2 =>
        split at h
        · exact absurd h (by simp)
        · injection h with h
          subst h
          simp only [Option.isSome_some, h1t, Bool.true_and, hr]
          cases hval : url.isEmpty with
          | true => exact absurd hval h2
          | false => rfl

theorem processStreamItem_some_shape (adv : Bool) (item : Json) (s : MediaStream)
    (h : processStreamItem adv item = .ok (some s)) :
    ∃ url cl, coreResolveUrl item = some url ∧ url.isEmpty = false ∧
      s = mkCoreStream adv item url cl := by
  unfold processStreamItem at h
  split at h
  · exact absurd h (by simp)
  · split at h
    · exact absurd h (by simp)
    · next url hr =>
      split at h
      · exact absurd h (by simp)
      · next h2 =>
        split at h
        · exact absurd h (by simp)
        · next cl hcl =>
          injection h with h
          injection h with h
          exact ⟨url, cl, hr, by simpa using h2, h.symm⟩

theorem mkCoreStream_proj (adv : Bool) (item : Json) (url : Str) (cl : Option Int) :
    (mkCoreStream adv item url cl).isDash = adv ∧
    (mkCoreStream adv item url cl).url = url ∧
    (mkCoreStream adv item url cl).mimeType = safeGetString item ("mimeType".toList) ∧
    (mkCoreStream adv item url cl).isAudioOnly =
      (if adv then
         (if hasSubstr (safeGetString item ("mimeType".toList)) ("audio/".toList) then (true, false)
          else if hasSubstr (safeGetString item ("mimeType".toList)) ("video/".toList) then (false, true)
          else (false, false))
       else (true, true)).1 ∧
    (mkCoreStream adv item url cl).isVideoOnly =
      (if adv then
         (if hasSubstr (safeGetString item ("mimeType".toList)) ("audio/".toList) then (true, false)
          else if hasSubstr (safeGetString item ("mimeType".toList)) ("video/".toList) then (false, true)
          else (false, false))
       else (true, true)).2 :=
  ⟨rfl, rfl, rfl, rfl, rfl⟩

theorem processStreamList_length (adv : Bool) : ∀ (xs : List Json) (out : List MediaStream),
    processStreamList adv xs = .ok out → out.length = xs.countP coreKeeps := by
  intro xs
  induction xs with
  | nil =>
    intro out h
    unfold processStreamList at h
    injection h with h
    subst h
    simp
  | cons x rest ih =>
    intro out h
    unfold processStreamList at h
    cases hx : processStreamItem adv x with
    | error e => rw [hx] at h; exact absurd h (by simp)
    | ok o =>
      rw [hx] at h
      cases hrest : processStreamList adv rest with
      | error e => rw [hrest] at h; exact absurd h (by simp)
      | ok r =>
        rw [hrest] at h
        injection h with h
        subst h
        have hkeep := processStreamItem_isSome adv x o hx
        cases o with
        | none =>
          rw [List.countP_cons]
          simp only [Option.isSome_none] at hkeep
          rw [← hkeep]
          simpa using ih r hrest
        | some s0 =>
          rw [List.countP_cons]
          simp only [Option.isSome_some] at hkeep
          rw [← hkeep]
          simp [ih r hrest]

/-! ## Lemmas: the downloader's per-entry behaviour -/

theorem formatItag_isSome (fj : Json) : (formatItag fj).isSome = hasNumericItag fj := by
  unfold formatItag hasNumericItag
  split
  · next hc => rw [hc]; rfl
  · next hc =>
    simp only [Bool.not_eq_true] at hc
    rw [hc]
    rfl

theorem processFormatItem_isSome (ge : Option (Str → Str)) (adv : Bool) (fj : Json)
    (o : Option VideoFormat) (h : processFormatItem ge adv fj = .ok o) :
    o.isSome = hasNumericItag fj := by
  have hshape := formatItag_isSome fj
  unfold processFormatItem at h
  split at h
  · next hit =>
    rw [hit] at hshape
    injection h with h
    subst h
    simpa using hshape.symm
  · next itg hit =>
    rw [hit] at hshape
    split at h
    · injection h with h
      subst h
      simpa using hshape.symm
    · split at h
      · split at h
        · exact absurd h (by simp)
        · injection h with h
          subst h
          simpa using hshape.symm
      · injection h with h
        subst h
        simpa using hshape.symm

theorem processFormatListItems_length (ge : Option (Str → Str)) (adv : Bool) :
    ∀ (xs : List Json) (out : List VideoFormat),
    processFormatListItems ge adv xs = .ok out → out.length = xs.countP hasNumericItag := by
  intro xs
  induction xs with
  | nil =>
    intro out h
    unfold processFormatListItems at h
    injection h with h
    subst h
    simp
  | cons x rest ih =>
    intro out h
    unfold processFormatListItems at h
    cases hx : processFormatItem ge adv x with
    | error e => rw [hx] at h; exact absurd h (by simp)
    | ok o =>
      rw [hx] at h
      cases hrest : processFormatListItems ge adv rest with
      | error e => rw [hrest] at h; exact absurd h (by simp)
      | ok r =>
        rw [hrest] at h
        injection h with h
        subst h
        have hkeep := processFormatItem_isSome ge adv x o hx
        cases o with
        | none =>
          rw [List.countP_cons]
          simp only [Option.isSome_none] at hkeep
          rw [← hkeep]
          simpa using ih r hrest
        | some f0 =>
          rw [List.countP_cons]
          simp only [Option.isSome_some] at hkeep
          rw [← hkeep]
          simp [ih r hrest]

theorem scanPairs_eq_specParams (c : Str) :
    scanPairs c [] [] true [] = specParams c := by
  obtain ⟨p, ps, h⟩ : ∃ p ps, splitOnChar '&' c = p :: ps := by
    cases hl : splitOnChar '&' c with
    | nil => exact absurd hl (splitOnChar_ne_nil _ _)
    | cons a b => exact ⟨a, b, rfl⟩
  rw [scanPairs_split c [] [] true [] (fun _ => rfl) p ps h]
  rw [specParams, h]
  simp only [List.foldl_cons]
  rw [finishPiece_fresh]

/-! ## Claim theorems -/

/-- C4 (code bug in the source): the claim says the catalog builder never
aborts or throws on any parsed player-response JSON — every guarded field
access degrades to a safe default and a `VideoDetails` is still returned.
The code violates this at a format entry whose `contentLength` is a
non-numeric string: the `std::stoll` at `youtube_fetcher.cpp:161` is not
guarded by a `try` block (unlike every neighbouring conversion), the throw
is not a `nlohmann::json::exception`, and it escapes
`parseVideoDetailsJson`, so no `VideoDetails` is returned. -/
theorem c4_contentLength_string_throws :
    parseVideoDetailsJson badContentLengthInput ("id".toList) = .error ()
    ∧ parseStreamFormats badContentLengthInput = .error () := by
  constructor <;> rfl

/-- C5: `parse_signature_cipher` behaves exactly as the spec's grammar says:
a left-to-right scan splitting pairs on `&` and each pair on only the first
`=` (later `=` stay in the value), percent-decoding key and value,
failing iff the accumulated map lacks `url` or `s`, and on success taking
the signature parameter name from `sp`, defaulting to `signature` when the
key is absent or its value empty — stated as equality with
`specCipherParse`, the direct transcription of those words. -/
theorem c5_cipher_parse_refinement (c : Str) :
    parse_signature_cipher c = specCipherParse c := by
  unfold parse_signature_cipher specCipherParse
  rw [scanPairs_eq_specParams]

/-- C9 (spec-modelled: the body of `filterStreams` is not under `src/`):
`filterStreams` keeps a stream iff all active constraints hold
(`streamMatches`, transcribed from §4.5), preserves input order (the result
is a sublist of the input), and is idempotent under the same criteria. -/
theorem c9_filterStreams_spec :
    (∀ (cr : FormatSelectionCriteria) (l : List MediaStream) (s : MediaStream),
        s ∈ filterStreams l cr ↔ s ∈ l ∧ streamMatches cr s = true)
    ∧ (∀ (cr : FormatSelectionCriteria) (l : List MediaStream), (filterStreams l cr).Sublist l)
    ∧ (∀ (cr : FormatSelectionCriteria) (l : List MediaStream),
        filterStreams (filterStreams l cr) cr = filterStreams l cr) := by
  refine ⟨fun cr l s => ?_, fun cr l => ?_, fun cr l => ?_⟩
  · exact List.mem_filter
  · exact List.filter_sublist l
  · unfold filterStreams
    apply List.filter_eq_self.mpr
    intro a ha
    exact (List.mem_filter.mp ha).2

/-- C2, counterexample: the claim says the catalog builder yields zero
MediaStreams for entries lacking an itag.  `noItagEntry` has no itag, yet
the core builder yields exactly one MediaStream for it (itag defaulted to
0), because its gate is url resolvability, not the itag. -/
theorem c2_counterexample :
    hasNumericItag noItagEntry = false
    ∧ parseStreamFormats noItagInput = .ok ([noItagStream], [])
    ∧ noItagStream.itag = 0 :=
  ⟨rfl, rfl, rfl⟩

/-- C2 (amended): the standalone downloader's format lister yields exactly
one `VideoFormat` per entry carrying a numeric itag and zero for entries
lacking one; the core catalog builder does not gate on itag (a missing itag
defaults to 0) — it yields exactly one `MediaStream` per entry whose url
resolves to a nonempty string and drops the rest. -/
theorem c2_itag_gate :
    (∀ (ge : Option (Str → Str)) (adv : Bool) (xs : List Json) (out : List VideoFormat),
        processFormatListItems ge adv xs = .ok out → out.length = xs.countP hasNumericItag)
    ∧ (∀ (adv : Bool) (xs : List Json) (out : List MediaStream),
        processStreamList adv xs = .ok out → out.length = xs.countP coreKeeps) :=
  ⟨processFormatListItems_length, processStreamList_length⟩

/-- C2, witness: both conjuncts applied at singleton arrays — the itag-only
entry survives the downloader's lister, and the url-bearing itag-less entry
survives the core builder. -/
theorem c2_witness :
    [bareItagFormat].length = [bareItagEntry].countP hasNumericItag
    ∧ [noItagStream].length = [noItagEntry].countP coreKeeps :=
  ⟨c2_itag_gate.1 none false [bareItagEntry] [bareItagFormat] (by rfl),
   c2_itag_gate.2 false [noItagEntry] [noItagStream] (by rfl)⟩

/-- C3, counterexample: the claim says every adaptive entry has exactly one
of `isAudioOnly`/`isVideoOnly` set.  For an adaptive entry whose `mimeType`
is missing (so contains neither `audio/` nor `video/`) the core builder
leaves BOTH flags false. -/
theorem c3_counterexample :
    parseStreamFormats noMimeAdaptiveInput = .ok ([], [noMimeAdaptiveStream])
    ∧ noMimeAdaptiveStream.isDash = true
    ∧ noMimeAdaptiveStream.isAudioOnly = false
    ∧ noMimeAdaptiveStream.isVideoOnly = false :=
  ⟨rfl, rfl, rfl, rfl⟩

/-- C3 (amended): for every stream the core builder catalogues, `isDash`
mirrors the source array; muxed entries carry both flags true; adaptive
entries carry exactly one flag when the mimeType contains the substring
`audio/` (audio wins) or `video/`, and BOTH flags false when it contains
neither. -/
theorem c3_flag_invariant (adv : Bool) (item : Json) (s : MediaStream)
    (h : processStreamItem adv item = .ok (some s)) :
    s.isDash = adv
    ∧ (adv = false → s.isAudioOnly = true ∧ s.isVideoOnly = true)
    ∧ (adv = true →
        (hasSubstr s.mimeType ("audio/".toList) = true →
          s.isAudioOnly = true ∧ s.isVideoOnly = false)
        ∧ (hasSubstr s.mimeType ("audio/".toList) = false →
            hasSubstr s.mimeType ("video/".toList) = true →
            s.isAudioOnly = false ∧ s.isVideoOnly = true)
        ∧ (hasSubstr s.mimeType ("audio/".toList) = false →
            hasSubstr s.mimeType ("video/".toList) = false →
            s.isAudioOnly = false ∧ s.isVideoOnly = false)) := by
  obtain ⟨url, cl, hr, hne, hshape⟩ := processStreamItem_some_shape adv item s h
  obtain ⟨hdash, hurl, hmime, hao, hvo⟩ := mkCoreStream_proj adv item url cl
  subst hshape
  rw [hmime, hdash, hao, hvo]
  cases adv with
  | false => simp
  | true =>
    refine ⟨rfl, fun hcon => ?_, fun _ => ⟨fun h1 => ?_, fun h1 h2 => ?_, fun h1 h2 => ?_⟩⟩
    · exact absurd hcon (by decide)
    · simp only [h1]
      simp
    · simp only [h1, h2]
      simp
    · simp only [h1, h2]
      simp

/-- C3, witness: the amended invariant applied at a concrete adaptive entry
with no mimeType gives both flags false. -/
theorem c3_witness :
    noMimeAdaptiveStream.isDash = true
    ∧ noMimeAdaptiveStream.isAudioOnly = false
    ∧ noMimeAdaptiveStream.isVideoOnly = false := by
  have h := c3_flag_invariant true noMimeEntry noMimeAdaptiveStream (by rfl)
  have h2 := (h.2.2 rfl).2.2 (by rfl) (by rfl)
  exact ⟨h.1, h2.1, h2.2⟩

/-- C10, counterexample: the claim says the cipher-bearing entry's url is
set to the percent-decoded value of the cipher's `url=` PARAMETER.  For the
cipher `curl=A&url=B` the `url` parameter's value (per the pair grammar the
spec itself gives) is `B`, but the regex `url=([^&]+)` first matches inside
`curl=A`, so the catalogued url is `A`. -/
theorem c10_counterexample :
    mapLookup (specParams ("curl=A&url=B".toList)) ("url".toList) = some ['B']
    ∧ parseStreamFormats curlCipherInput = .ok ([curlCipherStream], [])
    ∧ curlCipherStream.url = ['A'] :=
  ⟨rfl, rfl, rfl⟩

/-- C10 (amended): for a format entry lacking a direct url but carrying a
cipher/signatureCipher field, the core builder sets the url to the
percent-decoded text captured by the FIRST occurrence of `url=` followed by
a non-`&` run anywhere in the cipher value (which is the `url` parameter's
value whenever that first occurrence starts a parameter), with nothing
appended (no deciphering happens on this path), and drops the entry when no
such occurrence exists. -/
theorem c10_core_cipher_url (adv : Bool) (item : Json)
    (hobj : item.isObject = true)
    (hnourl : safeGetString item ("url".toList) = [])
    (hcip : (item.hasKey ("cipher".toList) || item.hasKey ("signatureCipher".toList)) = true) :
    (∀ m, findUrlParam (coreCipherVal item) = some m →
        ∀ s, processStreamItem adv item = .ok (some s) → s.url = curlUrlDecode m)
    ∧ (findUrlParam (coreCipherVal item) = none → processStreamItem adv item = .ok none) := by
  have hres : coreResolveUrl item =
      (match findUrlParam (coreCipherVal item) with
       | some m => some (curlUrlDecode m)
       | none => none) := by
    unfold coreResolveUrl
    rw [hnourl, hcip]
    rfl
  constructor
  · intro m hm s hs
    obtain ⟨url, cl, hr, hne, hshape⟩ := processStreamItem_some_shape adv item s hs
    rw [hres, hm] at hr
    injection hr with hr
    rw [hshape, (mkCoreStream_proj adv item url cl).2.1]
    exact hr.symm
  · intro hm
    unfold processStreamItem
    rw [hobj]
    rw [hres, hm]
    rfl

/-- C10, witness: the amended statement applied to the concrete entry with
cipher `curl=A&url=B` gives url `A` (= its own percent-decode). -/
theorem c10_witness : curlCipherStream.url = curlUrlDecode ['A'] :=
  (c10_core_cipher_url false curlCipherEntry rfl rfl rfl).1 ['A'] (by rfl)
    curlCipherStream (by rfl)

/-- C6: once a cipher parses and the transform yields a usable plaintext
signature (nonempty, no `PLACEHOLDER`), the final stream URL is the base
URL, then `&` if the base already has a query (`?`) and `?` otherwise, then
the sp name, `=`, and the signature; and concretely the cipher
`s=CBA&sp=sig&url=https%3A%2F%2Fexample.com%2Fv` with a reversing transform
yields exactly `https://example.com/v?sig=ABC`. -/
theorem c6_final_url :
    (∀ (d : Str → Str) (cipher base s sp : Str),
        parse_signature_cipher cipher = some (base, s, sp) →
        (d s).isEmpty = false →
        hasSubstr (d s) ("PLACEHOLDER".toList) = false →
        resolveCipherUrl (some d) cipher
          = base ++ (if (charIdx '?' base).isSome then ['&'] else ['?']) ++ sp ++ ['='] ++ d s)
    ∧ resolveCipherUrl (some List.reverse) roundTripCipher
        = "https://example.com/v?sig=ABC".toList := by
  constructor
  · intro d cipher base s sp hp hne hph
    unfold resolveCipherUrl
    rw [hp]
    simp only [hne, hph]
    by_cases hq : (charIdx '?' base).isSome
    · simp [hq]
    · simp only [Bool.not_eq_true] at hq
      simp [hq]
  · rfl

/-- C6, witness: the general construction instantiated at the round-trip
cipher with the reversing transform. -/
theorem c6_witness :
    resolveCipherUrl (some List.reverse) roundTripCipher
      = "https://example.com/v".toList
        ++ (if (charIdx '?' ("https://example.com/v".toList)).isSome then ['&'] else ['?'])
        ++ "sig".toList ++ ['='] ++ List.reverse ("CBA".toList) :=
  c6_final_url.1 List.reverse roundTripCipher ("https://example.com/v".toList)
    ("CBA".toList) ("sig".toList) (by rfl) (by rfl) (by rfl)

/-- C8: for an initialized engine, a sandbox evaluation failure, call error
or non-string return value makes only that one decipher call fail (it
returns the empty failure string) while the engine's extracted operations —
including its initialized flag — are never modified, so a later call with a
working sandbox still runs and succeeds. -/
theorem c8_execution_error_isolated :
    (∀ (hc : Bool) (sb : Sandbox) (ops : DecipherOperations) (sig : Str),
        (decipher_signature hc sb ops sig).2 = ops)
    ∧ (∀ (sb : Sandbox) (ops : DecipherOperations) (sig : Str),
        ops.initialized = true → ops.main_decipher_function_code ≠ [] →
        sb.evalOk ops.main_decipher_function_code = false →
        decipher_signature true sb ops sig = ([], ops))
    ∧ (∀ (sb1 sb2 : Sandbox) (ops : DecipherOperations) (sig1 sig2 res : Str),
        ops.initialized = true → ops.main_decipher_function_code ≠ [] →
        (ops.helper_object_code = [] ∨ sb1.evalOk ops.helper_object_code = true) →
        sb1.evalOk ops.main_decipher_function_code = true →
        sb1.isFunction ops.main_decipher_function_name = true →
        (sb1.callResult ops.main_decipher_function_name sig1 = none ∨
          sb1.callResult ops.main_decipher_function_name sig1 = some .jother) →
        (ops.helper_object_code = [] ∨ sb2.evalOk ops.helper_object_code = true) →
        sb2.evalOk ops.main_decipher_function_code = true →
        sb2.isFunction ops.main_decipher_function_name = true →
        sb2.callResult ops.main_decipher_function_name sig2 = some (.jstr res) →
        decipher_signature true sb1 ops sig1 = ([], ops)
        ∧ decipher_signature true sb2 ((decipher_signature true sb1 ops sig1).2) sig2
            = (res, ops)) := by
  have hstate : ∀ (hc : Bool) (sb : Sandbox) (ops : DecipherOperations) (sig : Str),
      (decipher_signature hc sb ops sig).2 = ops := by
    intro hc sb ops sig
    unfold decipher_signature
    repeat' split
    all_goals rfl
  have hrun : ∀ (sb : Sandbox) (ops : DecipherOperations) (sig res : Str),
      ops.initialized = true → ops.main_decipher_function_code ≠ [] →
      (ops.helper_object_code = [] ∨ sb.evalOk ops.helper_object_code = true) →
      sb.evalOk ops.main_decipher_function_code = true →
      sb.isFunction ops.main_decipher_function_name = true →
      sb.callResult ops.main_decipher_function_name sig = some (.jstr res) →
      decipher_signature true sb ops sig = (res, ops) := by
    intro sb ops sig res hinit hcode hhelp heval hfn hcall
    have hempty : ops.main_decipher_function_code.isEmpty = false := by
      cases hval : ops.main_decipher_function_code.isEmpty with
      | true => exact absurd (List.isEmpty_iff.mp hval) hcode
      | false => rfl
    have hhelpcond : (ops.helper_object_code.isEmpty = false
        && sb.evalOk ops.helper_object_code = false) = false := by
      rcases hhelp with hh | hh
      · simp [hh]
      · simp [hh]
    unfold decipher_signature
    rw [hinit, hempty, hhelpcond, heval, hfn, hcall]
    simp
  have hfail : ∀ (sb : Sandbox) (ops : DecipherOperations) (sig : Str),
      ops.initialized = true → ops.main_decipher_function_code ≠ [] →
      (ops.helper_object_code = [] ∨ sb.evalOk ops.helper_object_code = true) →
      sb.evalOk ops.main_decipher_function_code = true →
      sb.isFunction ops.main_decipher_function_name = true →
      (sb.callResult ops.main_decipher_function_name sig = none ∨
        sb.callResult ops.main_decipher_function_name sig = some .jother) →
      decipher_signature true sb ops sig = ([], ops) := by
    intro sb ops sig hinit hcode hhelp heval hfn hcall
    have hempty : ops.main_decipher_function_code.isEmpty = false := by
      cases hval : ops.main_decipher_function_code.isEmpty with
      | true => exact absurd (List.isEmpty_iff.mp hval) hcode
      | false => rfl
    have hhelpcond : (ops.helper_object_code.isEmpty = false
        && sb.evalOk ops.helper_object_code = false) = false := by
      rcases hhelp with hh | hh
      · simp [hh]
      · simp [hh]
    unfold decipher_signature
    rw [hinit, hempty, hhelpcond, heval, hfn]
    rcases hcall with hcall | hcall
    · rw [hcall]
      simp
    · rw [hcall]
      simp
  refine ⟨hstate, ?_, ?_⟩
  · intro sb ops sig hinit hcode heval
    have hempty : ops.main_decipher_function_code.isEmpty = false := by
      cases hval : ops.main_decipher_function_code.isEmpty with
      | true => exact absurd (List.isEmpty_iff.mp hval) hcode
      | false => rfl
    unfold decipher_signature
    rw [hinit, hempty, heval]
    by_cases hh : (ops.helper_object_code.isEmpty = false
        && sb.evalOk ops.helper_object_code = false) = true
    · rw [hh]
      simp
    · simp only [Bool.not_eq_true] at hh
      rw [hh]
      simp
  · intro sb1 sb2 ops sig1 sig2 res hinit hcode hh1 he1 hf1 hc1 hh2 he2 hf2 hc2
    have h1 := hfail sb1 ops sig1 hinit hcode hh1 he1 hf1 hc1
    refine ⟨h1, ?_⟩
    rw [hstate true sb1 ops sig1]
    exact hrun sb2 ops sig2 res hinit hcode hh2 he2 hf2 hc2

/-- C8, witness: a concrete initialized engine, a sandbox returning a
non-string value, and a working sandbox — the failing call yields the empty
string without touching the operations, and the follow-up call succeeds. -/
theorem c8_witness :
    decipher_signature true nonStringSandbox fixtureOps ("SIG1".toList) = ([], fixtureOps)
    ∧ decipher_signature true okSandbox
        ((decipher_signature true nonStringSandbox fixtureOps ("SIG1".toList)).2) ("SIG2".toList)
        = ("OK".toList, fixtureOps) :=
  c8_execution_error_isolated.2.2 nonStringSandbox okSandbox fixtureOps
    ("SIG1".toList) ("SIG2".toList) ("OK".toList) rfl (by decide) (Or.inl rfl) rfl rfl
    (Or.inr rfl) (Or.inl rfl) rfl rfl rfl

/-- C7: over every input string the player-response locator is a total
function on the input list (so it cannot crash or read past the end); it
returns none when the assignment anchor is absent or when no balancing
closing brace exists; when anchor, first `{`, and balanced closer all
exist it returns exactly the brace-balanced substring starting at that
first `{` — an infix of the input beginning with `{`, with net brace count
zero and every proper nonempty prefix strictly positive. -/
theorem c7_locator :
    (∀ html : Str, strFind anchorA html = none → extractJsonFromHtml html = none)
    ∧ (∀ (html : Str) (p b : Nat), anchorPosOf html = some p →
        charFindFrom lbrace html p = some b → braceScan (html.drop b) 0 = none →
        extractJsonFromHtml html = none)
    ∧ (∀ (html : Str) (p b e : Nat), anchorPosOf html = some p →
        charFindFrom lbrace html p = some b → braceScan (html.drop b) 0 = some e →
        extractJsonFromHtml html = some ((html.drop b).take (e + 1)))
    ∧ (∀ (html s : Str), extractJsonFromHtml html = some s →
        s <:+: html ∧ (∃ rest, s = lbrace :: rest) ∧ braceDelta s = 0 ∧
        ∀ k, 0 < k → k < s.length → 0 < braceDelta (s.take k)) := by
  refine ⟨?_, ?_, ?_, ?_⟩
  · intro html h1
    have h2 : strFind anchorVar html = none := by
      rw [strFind_none_iff]
      intro hv
      have hsub : anchorA <:+: anchorVar := ⟨"var ".toList, [], by decide⟩
      exact (strFind_none_iff anchorA html).mp h1 (hsub.trans hv)
    unfold extractJsonFromHtml anchorPosOf
    rw [h1, h2]
  · intro html p b ha hb he
    unfold extractJsonFromHtml
    rw [ha]
    show (match charFindFrom lbrace html p with
          | none => none
          | some b =>
            match braceScan (html.drop b) 0 with
            | none => none
            | some e => some ((html.drop b).take (e + 1))) = none
    rw [hb]
    show (match braceScan (html.drop b) 0 with
          | none => none
          | some e => some ((html.drop b).take (e + 1))) = none
    rw [he]
  · intro html p b e ha hb he
    unfold extractJsonFromHtml
    rw [ha]
    show (match charFindFrom lbrace html p with
          | none => none
          | some b =>
            match braceScan (html.drop b) 0 with
            | none => none
            | some e => some ((html.drop b).take (e + 1)))
        = some ((html.drop b).take (e + 1))
    rw [hb]
    show (match braceScan (html.drop b) 0 with
          | none => none
          | some e => some ((html.drop b).take (e + 1)))
        = some ((html.drop b).take (e + 1))
    rw [he]
  · intro html s h
    unfold extractJsonFromHtml at h
    split at h
    · exact absurd h (by simp)
    · next p ha =>
      split at h
      · exact absurd h (by simp)
      · next b hb =>
        split at h
        · exact absurd h (by simp)
        · next e he =>
          injection h with h
          subst h
          unfold charFindFrom at hb
          cases hi : charIdx lbrace (html.drop p) with
          | none => rw [hi] at hb; exact absurd hb (by simp)
          | some i =>
            rw [hi] at hb
            simp only [Option.map_some'] at hb
            injection hb with hb
            obtain ⟨rest, hdrop⟩ := charIdx_head (html.drop p) lbrace i hi
            have hdb : html.drop b = lbrace :: rest := by
              rw [← hb, Nat.add_comm i p, ← List.drop_drop i p html]
              exact hdrop
            rw [hdb] at he
            simp only [braceScan, if_pos rfl] at he
            cases he0 : braceScan rest (0 + 1) with
            | none => rw [he0] at he; exact absurd he (by simp)
            | some e0 =>
              rw [he0] at he
              simp only [Option.map_some'] at he
              injection he with he
              obtain ⟨hlen, hzero, hall⟩ := braceScan_spec rest (0 + 1) e0 (by omega) he0
              refine ⟨?_, ?_, ?_, ?_⟩
              · exact ((List.take_prefix (e + 1) (html.drop b)).isInfix).trans
                  ((List.drop_suffix b html).isInfix)
              · rw [hdb, ← he]
                exact ⟨rest.take (e0 + 1), rfl⟩
              · rw [hdb, ← he]
                simp only [List.take_succ_cons, braceDelta, if_pos rfl, if_true]
                linarith [hzero]
              · intro k hk0 hklen
                have hslen : ((html.drop b).take (e + 1)).length = e + 1 := by
                  rw [List.length_take, hdb]
                  simp only [List.length_cons]
                  omega
                rw [hslen] at hklen
                cases k with
                | zero => exact absurd hk0 (by omega)
                | succ k0 =>
                  have hk0e : k0 ≤ e0 := by omega
                  rw [hdb, ← he]
                  rw [List.take_succ_cons, List.take_succ_cons, List.take_take,
                    Nat.min_eq_left (by omega : k0 ≤ e0 + 1)]
                  simp only [braceDelta, if_pos rfl, if_true]
                  linarith [hall k0 hk0e]

/-- C7, witness: the positive branch applied to a concrete page — the
anchor sits at index 7, the first `{` at index 33, and the scan closes at
offset 6, extracting the seven-character balanced blob. -/
theorem c7_witness :
    extractJsonFromHtml locatorHtml = some ((locatorHtml.drop 33).take 7) :=
  c7_locator.2.2.1 locatorHtml 7 33 6 (by rfl) (by rfl) (by rfl)
